import Mathlib

namespace SwayMM

/-!
Verification of the workspace-activation reconciliation core of
`sway_monitor_manager.py`, shallowly embedded in Lean 4.

The embedding follows the Python source:
  * live compositor outputs (`swaymsg -t get_outputs` entries) become `Output`;
  * saved per-monitor entries become `MonitorProfile` (optional fields are
    `Option`, mirroring `dict.get` with a default);
  * the compositor commands issued by the program become values of `Action`;
  * `activate_workspace` (lines 292-341) becomes `activate`, with the
    interactive selection and the `swaymsg` query factored out as arguments;
  * `create_current_as_workspace` (lines 514-536) becomes `captureMonitors`;
  * `delete_workspace`, `load_workspaces`, the JSON store and the
    `subprocess.run(..., check=True)` wrappers are embedded below as well.
-/

/-- An x,y coordinate pair, as found in the `rect` / `position` JSON objects. -/
structure Pos where
  x : Int
  y : Int
deriving DecidableEq, Repr

/-- A live output as reported by `swaymsg -t get_outputs`.  The Python code
reads `make`/`model`/`serial` with `.get(..., "")`, `transform` with
`.get(..., "normal")` and `rect` with a `{"x":0,"y":0}` default, so those
defaults are already applied in this record. -/
structure Output where
  name : String
  make : String
  model : String
  serial : String
  active : Bool
  transform : String
  rect : Pos
deriving DecidableEq, Repr

/-- A saved monitor entry inside a workspace.  `state`, `transform` and
`position` may be absent from the stored JSON object, hence `Option`;
the code reads them with `.get("state", "enable")`, `.get("transform", None)`
and `.get("position", {"x": 0, "y": 0})`. -/
structure MonitorProfile where
  description : String
  state : Option String
  transform : Option String
  position : Option Pos
deriving DecidableEq, Repr

/-- A named workspace: `{"name": ..., "monitors": [...]}`. -/
structure Workspace where
  name : String
  monitors : List MonitorProfile
deriving DecidableEq, Repr

/-- The whole persisted document: `{"workspaces": [...]}`. -/
structure WorkspacesData where
  workspaces : List Workspace
deriving DecidableEq, Repr

/-- A compositor command issued by the program (`swaymsg output <name> ...`). -/
inductive Action where
  | enable (output : String)
  | disable (output : String)
  | setTransform (output : String) (t : String)
  | setPosition (output : String) (x : Int) (y : Int)
deriving DecidableEq, Repr

/-- The output name an action refers to. -/
def Action.outputName : Action → String
  | .enable n => n
  | .disable n => n
  | .setTransform n _ => n
  | .setPosition n _ _ => n

/-- Python `str.strip()`: drop whitespace from both ends of a string. -/
def pyStrip (s : String) : String :=
  ⟨((s.data.dropWhile Char.isWhitespace).reverse.dropWhile Char.isWhitespace).reverse⟩

/-- Derived description of a live output:
`f"{make} {model} {serial}".strip()` with each component itself stripped
(lines 296-299 and the identical lines 102-105, 386-389, 518-521). -/
def Output.descriptionOf (o : Output) : String :=
  pyStrip (pyStrip o.make ++ " " ++ pyStrip o.model ++ " " ++ pyStrip o.serial)

/-- The `description_to_output` dictionary of lines 293-300, as a lookup
function.  The dict is filled in list order, so a later output with the same
description silently overwrites an earlier one; the recursion below gives the
tail (later entries) priority, which is exactly that last-write-wins map. -/
def lookupOf : List Output → String → Option String
  | [], _ => none
  | o :: rest, d =>
      match lookupOf rest d with
      | some n => some n
      | none => if o.descriptionOf = d then some o.name else none

/-- `workspace_output_names` of lines 303-308: resolve each profile through the
lookup and keep the name when it is truthy (Python `if output_name:` is false
both for `None` and for the empty string). -/
def resolvedNames (ws : Workspace) (live : List Output) : List String :=
  ws.monitors.filterMap fun p =>
    match lookupOf live p.description with
    | some n => if n = "" then none else some n
    | none => none

/-- The body of the per-profile loop of lines 319-341: resolve the
description (skip, with only a printed message, when the lookup misses or
returns a falsy name), then emit enable/disable per `state` (default
`"enable"`; any other string emits nothing), a transform command when
`transform` is truthy, and a position command (the Python guard
`x is not None and y is not None` always holds because the `.get` defaults
are the integer 0). -/
def profileStep (live : List Output) (p : MonitorProfile) : List Action :=
  match lookupOf live p.description with
  | none => []
  | some n =>
      if n = "" then []
      else
        (if p.state.getD "enable" = "enable" then [Action.enable n]
         else if p.state.getD "enable" = "disable" then [Action.disable n]
         else [])
        ++ (match p.transform with
            | some t => if t = "" then [] else [Action.setTransform n t]
            | none => [])
        ++ [Action.setPosition n (p.position.getD ⟨0, 0⟩).x (p.position.getD ⟨0, 0⟩).y]

/-- The action sequence of `activate_workspace` (lines 292-341) for a chosen
workspace and the live output list.  Phase 1 disables every live output name
outside the resolved set (`all_current_outputs - workspace_outputs_set`,
lines 310-316; the Python iterates a set, whose order is unspecified, so any
fixed order is a legitimate refinement — we keep first-occurrence order of the
names list, deduplicated as a set is).  Phase 2 runs the per-profile loop in
stored list order. -/
def activate (ws : Workspace) (live : List Output) : List Action :=
  let toDisable :=
    ((live.map Output.name).dedup).filter fun n => ¬ n ∈ resolvedNames ws live
  toDisable.map Action.disable ++ ws.monitors.flatMap (profileStep live)

/-- The monitor list captured by `create_current_as_workspace`
(lines 514-536): one entry per active output, with its derived description,
state `"enable"`, current transform and current position; inactive outputs are
skipped (`state != "disable"` filters them out before appending). -/
def captureMonitors (live : List Output) : List MonitorProfile :=
  live.filterMap fun o =>
    if o.active then
      some ⟨o.descriptionOf, some (if o.active then "enable" else "disable"),
            some o.transform, some o.rect⟩
    else none

/-! ### The persisted JSON store -/

/-- A JSON value, as produced by `json.dump` / consumed by `json.load`.
Only the constructors the program's document shape uses are needed. -/
inductive Json where
  | str (s : String)
  | int (n : Int)
  | arr (items : List Json)
  | obj (fields : List (String × Json))

/-- `dict.get(key)` on a parsed JSON object (first binding; the program's own
serializer never writes a key twice). -/
def Json.get : Json → String → Option Json
  | .obj fields, k => (fields.find? fun f => f.1 = k).map fun f => f.2
  | _, _ => none

/-- The JSON object `json.dump` writes for one position. -/
def Pos.toJson (p : Pos) : Json :=
  .obj [("x", .int p.x), ("y", .int p.y)]

/-- The JSON object written for one monitor entry; optional fields are
emitted only when present, matching a dict that simply lacks the key. -/
def MonitorProfile.toJson (m : MonitorProfile) : Json :=
  .obj ([("description", .str m.description)]
    ++ (match m.state with | some s => [("state", Json.str s)] | none => [])
    ++ (match m.transform with | some t => [("transform", Json.str t)] | none => [])
    ++ (match m.position with | some p => [("position", p.toJson)] | none => []))

/-- The JSON object written for one workspace. -/
def Workspace.toJson (w : Workspace) : Json :=
  .obj [("name", .str w.name), ("monitors", .arr (w.monitors.map MonitorProfile.toJson))]

/-- The whole document `save_workspaces` serializes (lines 54-57); the
4-space pretty-printing only affects the text, not the JSON value. -/
def WorkspacesData.toJson (d : WorkspacesData) : Json :=
  .obj [("workspaces", .arr (d.workspaces.map Workspace.toJson))]

/-- Reading a string-valued key back out of a parsed object, the way the
program's dict accesses do (`monitor_config["description"]`,
`.get("state", ...)`, ...). -/
def Json.getStr (j : Json) (k : String) : Option String :=
  match j.get k with
  | some (.str s) => some s
  | _ => none

/-- Reading an int-valued key. -/
def Json.getInt (j : Json) (k : String) : Option Int :=
  match j.get k with
  | some (.int n) => some n
  | _ => none

/-- Decoding a position object back into the data model. -/
def Pos.fromJson (j : Json) : Option Pos :=
  match j.getInt "x", j.getInt "y" with
  | some x, some y => some ⟨x, y⟩
  | _, _ => none

/-- Decoding one monitor entry: `description` is accessed unconditionally
(`monitor_config["description"]`, line 320); `state`/`transform`/`position`
are optional (`.get`, lines 321-323). -/
def MonitorProfile.fromJson (j : Json) : Option MonitorProfile :=
  match j.getStr "description" with
  | none => none
  | some d =>
      some ⟨d, j.getStr "state", j.getStr "transform",
            (j.get "position").bind Pos.fromJson⟩

/-- Decoding one workspace (`ws["name"]`, `ws["monitors"]`). -/
def Workspace.fromJson (j : Json) : Option Workspace :=
  match j.getStr "name", j.get "monitors" with
  | some nm, some (.arr ms) =>
      (ms.mapM MonitorProfile.fromJson).map fun monitors => ⟨nm, monitors⟩
  | _, _ => none

/-- Decoding the whole document (`workspaces_data["workspaces"]`). -/
def WorkspacesData.fromJson (j : Json) : Option WorkspacesData :=
  match j.get "workspaces" with
  | some (.arr ws) => (ws.mapM Workspace.fromJson).map fun workspaces => ⟨workspaces⟩
  | _ => none

/-- What the workspaces file can look like when `load_workspaces` runs:
absent, present but not valid JSON (`json.load` raises `JSONDecodeError`),
or present and parsed to a JSON value. -/
inductive FileState where
  | missing
  | malformed
  | parsed (j : Json)

/-- The empty document `{"workspaces": []}` the fallback branches build. -/
def emptyDoc : Json := .obj [("workspaces", .arr [])]

/-- `load_workspaces` (lines 41-51): a missing file yields
`{"workspaces": []}`; a `JSONDecodeError` is caught, a warning is printed and
the same empty document is returned; otherwise the parsed value is returned
as-is.  No exception escapes in any case (the function is total). -/
def load_workspaces : FileState → Json
  | .missing => emptyDoc
  | .malformed => emptyDoc
  | .parsed j => j

/-! ### Compositor command wrappers -/

/-- The exception `subprocess.run(..., check=True)` raises when the command
exits non-zero. -/
structure CalledProcessError where
  returncode : Nat
deriving DecidableEq, Repr

/-- `subprocess.run(cmd, check=check)` as a function of the command's exit
status: with `check=True` a non-zero exit raises `CalledProcessError`,
otherwise the call returns normally. -/
def subprocess_run (check : Bool) (exitCode : Nat) : Except CalledProcessError Unit :=
  if check && decide (exitCode ≠ 0) then .error ⟨exitCode⟩ else .ok ()

/-- `enable_monitor` (lines 17-19): prints a message, then
`subprocess.run(["swaymsg", "output", name, "enable"], check=True)`. -/
def enable_monitor (_monitor_name : String) (exitCode : Nat) :
    Except CalledProcessError Unit :=
  subprocess_run true exitCode

/-- `disable_monitor` (lines 22-24). -/
def disable_monitor (_monitor_name : String) (exitCode : Nat) :
    Except CalledProcessError Unit :=
  subprocess_run true exitCode

/-- `set_rotation` (lines 27-31). -/
def set_rotation (_output_name : String) (_rotation : String) (exitCode : Nat) :
    Except CalledProcessError Unit :=
  subprocess_run true exitCode

/-! ### Workspace creation and deletion -/

/-- `create_new_workspace` (lines 344-474), with the interactive inputs as
arguments: `nameAnswer` is the text-prompt result (`None` on cancel),
`liveResult` the parsed `swaymsg -t get_outputs` reply (`none` models a
`JSONDecodeError`), and `authored` the monitor list the per-output prompt
loop of lines 384-463 builds from the user's choices.  The return value is
the document passed to `save_workspaces`, or `none` when the function
returns without saving. -/
def create_new_workspace (data : WorkspacesData) (nameAnswer : Option String)
    (liveResult : Option (List Output)) (authored : List MonitorProfile) :
    Option WorkspacesData :=
  match nameAnswer with
  | none => none
  | some raw =>
      let workspace_name := pyStrip raw
      if workspace_name = "" then none
      else if data.workspaces.any fun ws => ws.name = workspace_name then none
      else
        match liveResult with
        | none => none
        | some live =>
            if live.isEmpty then none
            else some ⟨data.workspaces ++ [⟨workspace_name, authored⟩]⟩

/-- `create_current_as_workspace` (lines 477-547), with the same conventions;
the captured monitor list is computed from the live outputs by
`captureMonitors`. -/
def create_current_as_workspace (data : WorkspacesData) (nameAnswer : Option String)
    (liveResult : Option (List Output)) : Option WorkspacesData :=
  match nameAnswer with
  | none => none
  | some raw =>
      let workspace_name := pyStrip raw
      if workspace_name = "" then none
      else if data.workspaces.any fun ws => ws.name = workspace_name then none
      else
        match liveResult with
        | none => none
        | some live =>
            if live.isEmpty then none
            else some ⟨data.workspaces ++ [⟨workspace_name, captureMonitors live⟩]⟩

/-- `delete_workspace` (lines 550-578), with the checkbox selection as an
argument.  The result is the list of `save_workspaces` calls performed: none
when the selection is empty (the function returns early), otherwise exactly
one save, of the data after the per-name filtering loop of lines 572-576. -/
def delete_workspace (data : WorkspacesData) (selected : List String) :
    List WorkspacesData :=
  if selected.isEmpty then []
  else
    [⟨selected.foldl
        (fun ws ws_name => ws.filter fun w => ¬ w.name = ws_name)
        data.workspaces⟩]

/-! ### Enabled-state semantics of an action sequence -/

/-- Effect of one compositor command on the enabled/disabled state of
outputs, as a predicate on output names; transform and position commands do
not change which outputs are enabled. -/
def applyAction (f : String → Bool) : Action → (String → Bool)
  | .enable n => fun m => if m = n then true else f m
  | .disable n => fun m => if m = n then false else f m
  | .setTransform _ _ => f
  | .setPosition _ _ _ => f

/-- Enabled-state after running a sequence of commands in order. -/
def enabledAfter (f : String → Bool) (acts : List Action) : String → Bool :=
  acts.foldl applyAction f

/-- Initial enabled-state of the live output list: a name is enabled when
some live output carries it and is active. -/
def activeInit (live : List Output) (n : String) : Bool :=
  live.any fun o => o.name = n && o.active

/-! ### Claim-side (specification) definitions, written from the claims'
own words, to be compared with the code-derived definitions above -/

/-- A live output name is matched by a profile description when some profile
of the workspace resolves to it through the description lookup. -/
def matchedByProfile (ws : Workspace) (live : List Output) (n : String) : Bool :=
  ws.monitors.any fun p => lookupOf live p.description = some n

/-- The per-profile action sequence exactly as claim C1 words it: an Enable
or Disable action according to the profile's state (defaulting to enable when
state is unset), a SetTransform action exactly when transform is present, and
a SetPosition action using the profile's position (origin 0,0 when unset). -/
def claimProfileActions (live : List Output) (p : MonitorProfile) : List Action :=
  match lookupOf live p.description with
  | none => []
  | some n =>
      (if p.state.getD "enable" = "enable" then [Action.enable n]
       else [Action.disable n])
      ++ (match p.transform with
          | some t => [Action.setTransform n t]
          | none => [])
      ++ [Action.setPosition n (p.position.getD ⟨0, 0⟩).x (p.position.getD ⟨0, 0⟩).y]

/-- The profile claim C5 says capture emits for one active output: its
derived description, state "enable", its current transform, its current
position. -/
def claimCaptureEntry (o : Output) : MonitorProfile :=
  ⟨o.descriptionOf, some "enable", some o.transform, some o.rect⟩

-- The spec's worked example (claim C3).
def exampleHDMI : Output :=
  ⟨"HDMI-1", "Dell", "U2", "", true, "normal", ⟨0, 0⟩⟩

def exampleDP : Output :=
  ⟨"DP-1", "LG", "5K", "", false, "normal", ⟨0, 0⟩⟩

def exampleWork : Workspace :=
  ⟨"work", [⟨"Dell U2", some "enable", some "90", some ⟨0, 0⟩⟩]⟩

/-! ### Helper lemmas -/

theorem lookupOf_sound {live : List Output} {d n : String}
    (h : lookupOf live d = some n) :
    ∃ o, o ∈ live ∧ o.descriptionOf = d ∧ o.name = n := by
  induction live with
  | nil => simp [lookupOf] at h
  | cons o rest ih =>
      rw [lookupOf] at h
      cases hr : lookupOf rest d with
      | some m =>
          rw [hr] at h
          have hm : (some m : Option String) = some n := h
          obtain rfl : m = n := Option.some.inj hm
          obtain ⟨o', ho', hd, hn⟩ := ih hr
          exact ⟨o', List.mem_cons_of_mem _ ho', hd, hn⟩
      | none =>
          rw [hr] at h
          have h' : (if o.descriptionOf = d then some o.name else none) = some n := h
          by_cases hod : o.descriptionOf = d
          · rw [if_pos hod] at h'
            exact ⟨o, List.mem_cons_self .., hod, Option.some.inj h'⟩
          · rw [if_neg hod] at h'
            exact absurd h' (by simp)

theorem lookupOf_eq_none {live : List Output} {d : String}
    (h : ∀ o ∈ live, ¬ o.descriptionOf = d) : lookupOf live d = none := by
  induction live with
  | nil => rfl
  | cons o rest ih =>
      rw [lookupOf, ih fun o' ho' => h o' (List.mem_cons_of_mem _ ho'),
        if_neg (h o (List.mem_cons_self ..))]

theorem lookupOf_self {live : List Output} {o : Output}
    (hnd : (live.map Output.descriptionOf).Nodup) (ho : o ∈ live) :
    lookupOf live o.descriptionOf = some o.name := by
  induction live with
  | nil => simp at ho
  | cons x rest ih =>
      rw [List.map_cons, List.nodup_cons] at hnd
      rcases List.mem_cons.mp ho with rfl | ho'
      · have hnone : lookupOf rest o.descriptionOf = none :=
          lookupOf_eq_none fun o' ho' hd =>
            hnd.1 (hd ▸ List.mem_map_of_mem Output.descriptionOf ho')
        rw [lookupOf, hnone, if_pos rfl]
      · rw [lookupOf, ih hnd.2 ho']

theorem mapM_map_of_eq_some {α β : Type} {f : β → Option α} {g : α → β}
    {l : List α} (h : ∀ x ∈ l, f (g x) = some x) :
    (l.map g).mapM f = some l := by
  induction l with
  | nil => rfl
  | cons a l ih =>
      rw [List.map_cons, List.mapM_cons, h a (List.mem_cons_self ..),
        ih fun x hx => h x (List.mem_cons_of_mem _ hx)]
      rfl

theorem filterMap_map_of_eq_some {α β γ : Type} {f : β → Option γ} {g : α → β}
    {e : α → γ} {l : List α} (h : ∀ x ∈ l, f (g x) = some (e x)) :
    (l.map g).filterMap f = l.map e := by
  induction l with
  | nil => rfl
  | cons a l ih =>
      rw [List.map_cons, List.filterMap_cons, h a (List.mem_cons_self ..),
        List.map_cons, ih fun x hx => h x (List.mem_cons_of_mem _ hx)]

/-! ### The claims -/

/-- C3: on the spec's worked example — live outputs HDMI-1 (Dell U2, active)
and DP-1 (LG 5K, inactive), workspace "work" with the single profile
(description "Dell U2", state enable, transform 90, position 0,0) —
activation issues exactly: a disable for DP-1 (a no-op disable, DP-1 being
already inactive, but still issued), then enable, transform 90 and
position (0,0) for HDMI-1. -/
theorem activate_spec_example :
    activate exampleWork [exampleHDMI, exampleDP] =
      [Action.disable "DP-1", Action.enable "HDMI-1",
       Action.setTransform "HDMI-1" "90", Action.setPosition "HDMI-1" 0 0] := by
  decide

/-- C6: `load_workspaces` on a missing file returns the empty document
`{"workspaces": []}` (an empty store once decoded), and on a file whose
content is not valid JSON it likewise returns the empty document; both
branches return normally rather than raising. -/
theorem load_workspaces_missing_or_malformed :
    (load_workspaces .missing = emptyDoc
      ∧ WorkspacesData.fromJson (load_workspaces .missing) = some ⟨[]⟩)
    ∧ (load_workspaces .malformed = emptyDoc
      ∧ WorkspacesData.fromJson (load_workspaces .malformed) = some ⟨[]⟩) :=
  ⟨⟨rfl, rfl⟩, ⟨rfl, rfl⟩⟩

theorem pos_fromJson_toJson (p : Pos) : Pos.fromJson p.toJson = some p := rfl

theorem monitor_fromJson_toJson (m : MonitorProfile) :
    MonitorProfile.fromJson m.toJson = some m := by
  obtain ⟨d, st, tf, pos⟩ := m
  cases st <;> cases tf <;> cases pos <;> rfl

theorem workspace_fromJson_toJson (w : Workspace) :
    Workspace.fromJson w.toJson = some w := by
  have hms : (w.monitors.map MonitorProfile.toJson).mapM MonitorProfile.fromJson
      = some w.monitors :=
    mapM_map_of_eq_some fun m _ => monitor_fromJson_toJson m
  have h1 : (Workspace.toJson w).getStr "name" = some w.name := rfl
  have h2 : (Workspace.toJson w).get "monitors"
      = some (.arr (w.monitors.map MonitorProfile.toJson)) := rfl
  rw [Workspace.fromJson, h1, h2]
  show ((w.monitors.map MonitorProfile.toJson).mapM MonitorProfile.fromJson).map
      (fun monitors => Workspace.mk w.name monitors) = some w
  rw [hms]
  rfl

/-- C7: saving the store and loading it back yields a value-equal store:
every workspace name and every monitor's description, state, transform and
position survive the `json.dump` / `json.load` round trip exactly. -/
theorem save_load_roundtrip (d : WorkspacesData) :
    WorkspacesData.fromJson (load_workspaces (.parsed d.toJson)) = some d := by
  have hws : (d.workspaces.map Workspace.toJson).mapM Workspace.fromJson
      = some d.workspaces :=
    mapM_map_of_eq_some fun w _ => workspace_fromJson_toJson w
  have h2 : Json.get d.toJson "workspaces"
      = some (.arr (d.workspaces.map Workspace.toJson)) := rfl
  rw [load_workspaces, WorkspacesData.fromJson, h2]
  show ((d.workspaces.map Workspace.toJson).mapM Workspace.fromJson).map
      (fun workspaces => WorkspacesData.mk workspaces) = some d
  rw [hws]
  rfl

/-- C8 counterexample: a non-zero exit status of the `swaymsg` enable and
transform commands IS surfaced to the caller as a typed error
(`subprocess.run(..., check=True)` raises `CalledProcessError`), contrary to
the claim that no error beyond logging is raised on command failure. -/
theorem enable_monitor_raises_on_failure :
    enable_monitor "HDMI-1" 1 = .error ⟨1⟩
      ∧ set_rotation "HDMI-1" "90" 1 = .error ⟨1⟩ := ⟨rfl, rfl⟩

/-- C8 (amended): the enable/disable/transform command wrappers run
`subprocess.run` with `check=True`: a zero exit status returns normally and
any non-zero exit status raises `CalledProcessError` carrying that status to
the caller — command failure is not merely logged. -/
theorem monitor_commands_check_exit (n rot : String) (exitCode : Nat) :
    enable_monitor n exitCode
        = (if exitCode = 0 then .ok () else .error ⟨exitCode⟩)
      ∧ disable_monitor n exitCode
        = (if exitCode = 0 then .ok () else .error ⟨exitCode⟩)
      ∧ set_rotation n rot exitCode
        = (if exitCode = 0 then .ok () else .error ⟨exitCode⟩) := by
  refine ⟨?_, ?_, ?_⟩ <;>
    by_cases h : exitCode = 0 <;>
      simp [enable_monitor, disable_monitor, set_rotation, subprocess_run, h]

/-- C9: when the requested (stripped) name already names a workspace in the
store, both creation paths abort before any mutation: neither
`create_new_workspace` nor `create_current_as_workspace` performs a save, so
the persisted store is untouched. -/
theorem create_duplicate_aborts (data : WorkspacesData) (raw : String)
    (liveResult : Option (List Output)) (authored : List MonitorProfile)
    (ws0 : Workspace) (hmem : ws0 ∈ data.workspaces)
    (hname : ws0.name = pyStrip raw) :
    create_new_workspace data (some raw) liveResult authored = none
      ∧ create_current_as_workspace data (some raw) liveResult = none := by
  have hdup : (data.workspaces.any fun ws => ws.name = pyStrip raw) = true :=
    List.any_eq_true.mpr ⟨ws0, hmem, decide_eq_true hname⟩
  by_cases he : pyStrip raw = "" <;>
    exact ⟨by simp [create_new_workspace, he, hdup],
           by simp [create_current_as_workspace, he, hdup]⟩

theorem create_duplicate_aborts_witness :
    create_new_workspace ⟨[⟨"work", []⟩]⟩ (some "work") none [] = none
      ∧ create_current_as_workspace ⟨[⟨"work", []⟩]⟩ (some "work") none = none :=
  create_duplicate_aborts ⟨[⟨"work", []⟩]⟩ "work" none [] ⟨"work", []⟩
    (by decide) (by decide)

theorem foldl_delete_filter (sel : List String) :
    ∀ ws : List Workspace,
      sel.foldl (fun ws ws_name => ws.filter fun w => ¬ w.name = ws_name) ws
        = ws.filter fun w => ¬ w.name ∈ sel := by
  induction sel with
  | nil => intro ws; simp
  | cons n sel ih =>
      intro ws
      rw [List.foldl_cons, ih, List.filter_filter]
      apply List.filter_congr
      intro w _
      by_cases h1 : w.name = n <;> by_cases h2 : w.name ∈ sel <;>
        simp [h1, h2]

/-- C10: deletion removes every workspace entry whose name equals a selected
name (all duplicates at once, the per-name loop being a full-list filter),
and performs exactly one save, after all selected names are processed. -/
theorem delete_removes_all (data : WorkspacesData) (selected : List String)
    (h : selected ≠ []) :
    delete_workspace data selected
      = [⟨data.workspaces.filter fun w => ¬ w.name ∈ selected⟩] := by
  cases selected with
  | nil => exact absurd rfl h
  | cons n sel =>
      rw [delete_workspace, if_neg (by simp), foldl_delete_filter]

theorem delete_removes_all_witness :
    delete_workspace ⟨[⟨"a", []⟩, ⟨"b", []⟩, ⟨"a", []⟩]⟩ ["a"]
      = [⟨[⟨"b", []⟩]⟩] := by
  rw [delete_removes_all _ _ (by decide)]
  decide

theorem mem_profileStep_lookup {live : List Output} {p : MonitorProfile}
    {a : Action} (h : a ∈ profileStep live p) :
    lookupOf live p.description = some a.outputName := by
  unfold profileStep at h
  split at h
  · simp at h
  · rename_i n hl
    rw [hl]
    split at h
    · simp at h
    · suffices hs : a.outputName = n by rw [hs]
      rcases List.mem_append.mp h with h1 | h2
      · rcases List.mem_append.mp h1 with h3 | h4
        · split at h3
          · rw [List.mem_singleton.mp h3]; rfl
          · split at h3
            · rw [List.mem_singleton.mp h3]; rfl
            · simp at h3
        · split at h4
          · split at h4
            · simp at h4
            · rw [List.mem_singleton.mp h4]; rfl
          · simp at h4
      · rw [List.mem_singleton.mp h2]; rfl

/-- C2: every action `activate` emits — the unmatched-output disables of
phase 1 and the per-profile enable/disable/transform/position commands of
phase 2 — names an output that occurs in the live output list; no action ever
refers to an output absent from it. -/
theorem activate_only_live_names (ws : Workspace) (live : List Output)
    (a : Action) (h : a ∈ activate ws live) :
    a.outputName ∈ live.map Output.name := by
  unfold activate at h
  rcases List.mem_append.mp h with h1 | h2
  · obtain ⟨n, hn, rfl⟩ := List.mem_map.mp h1
    exact List.mem_dedup.mp (List.mem_filter.mp hn).1
  · obtain ⟨p, _, hap⟩ := List.mem_flatMap.mp h2
    obtain ⟨o, ho, _, hn⟩ := lookupOf_sound (mem_profileStep_lookup hap)
    rw [← hn]
    exact List.mem_map_of_mem Output.name ho

theorem activate_only_live_names_witness :
    Action.disable "DP-1" ∈ activate exampleWork [exampleHDMI, exampleDP]
      ∧ (Action.disable "DP-1").outputName
          ∈ [exampleHDMI, exampleDP].map Output.name :=
  ⟨by decide,
   activate_only_live_names exampleWork [exampleHDMI, exampleDP]
     (Action.disable "DP-1") (by decide)⟩

/-- C4: a profile whose description matches no live output contributes
nothing to activation: `activate` still runs to completion (it is a total
function of the remaining profiles), the unmatched entry is skipped (only a
message is printed), and the action sequence is exactly the one the
workspace without that entry produces — all remaining matched profiles are
still applied. -/
theorem activate_skips_unmatched (nm : String) (ms₁ ms₂ : List MonitorProfile)
    (p : MonitorProfile) (live : List Output)
    (h : ∀ o ∈ live, ¬ o.descriptionOf = p.description) :
    activate ⟨nm, ms₁ ++ p :: ms₂⟩ live = activate ⟨nm, ms₁ ++ ms₂⟩ live := by
  have hl : lookupOf live p.description = none := lookupOf_eq_none h
  have hstep : profileStep live p = [] := by rw [profileStep, hl]
  have hres : resolvedNames ⟨nm, ms₁ ++ p :: ms₂⟩ live
      = resolvedNames ⟨nm, ms₁ ++ ms₂⟩ live := by
    simp only [resolvedNames, List.filterMap_append, List.filterMap_cons, hl]
  simp only [activate, hres, List.flatMap_append, List.flatMap_cons, hstep,
    List.nil_append]

theorem activate_skips_unmatched_witness :
    (∀ o ∈ [exampleHDMI, exampleDP], ¬ o.descriptionOf = "Nope")
      ∧ activate ⟨"w", [⟨"Nope", none, none, none⟩,
            ⟨"Dell U2", some "enable", some "90", some ⟨0, 0⟩⟩]⟩
          [exampleHDMI, exampleDP]
        = activate ⟨"w", [⟨"Dell U2", some "enable", some "90", some ⟨0, 0⟩⟩]⟩
          [exampleHDMI, exampleDP] :=
  ⟨by decide,
   activate_skips_unmatched "w" []
     [⟨"Dell U2", some "enable", some "90", some ⟨0, 0⟩⟩]
     ⟨"Nope", none, none, none⟩ [exampleHDMI, exampleDP] (by decide)⟩

/-! ### C1: the two-phase shape of activation, stated from the claim's words -/

theorem mem_resolvedNames {ws : Workspace} {live : List Output} {n : String} :
    n ∈ resolvedNames ws live ↔
      (∃ p ∈ ws.monitors, lookupOf live p.description = some n) ∧ ¬ n = "" := by
  unfold resolvedNames
  rw [List.mem_filterMap]
  constructor
  · rintro ⟨p, hp, hf⟩
    cases hl : lookupOf live p.description with
    | none =>
        rw [hl] at hf
        exact absurd (show (none : Option String) = some n from hf) (by simp)
    | some m =>
        rw [hl] at hf
        have hf' : (if m = "" then none else some m) = some n := hf
        by_cases hm : m = ""
        · rw [if_pos hm] at hf'
          exact absurd hf' (by simp)
        · rw [if_neg hm] at hf'
          obtain rfl : m = n := Option.some.inj hf'
          exact ⟨⟨p, hp, hl⟩, hm⟩
  · rintro ⟨⟨p, hp, hl⟩, hn⟩
    refine ⟨p, hp, ?_⟩
    rw [hl]
    show (if n = "" then none else some n) = some n
    rw [if_neg hn]

theorem mem_resolved_iff_matched {ws : Workspace} {live : List Output}
    {n : String} (hnames : ∀ o ∈ live, ¬ o.name = "") :
    n ∈ resolvedNames ws live ↔ matchedByProfile ws live n = true := by
  rw [mem_resolvedNames, matchedByProfile, List.any_eq_true]
  constructor
  · rintro ⟨⟨p, hp, hl⟩, _⟩
    exact ⟨p, hp, decide_eq_true hl⟩
  · rintro ⟨p, hp, hd⟩
    have hl := of_decide_eq_true hd
    obtain ⟨o, ho, _, hno⟩ := lookupOf_sound hl
    exact ⟨⟨p, hp, hl⟩, by rw [← hno]; exact hnames o ho⟩

theorem flatMap_congr_of_mem {α β : Type} {l : List α} {f g : α → List β}
    (h : ∀ a ∈ l, f a = g a) : l.flatMap f = l.flatMap g := by
  induction l with
  | nil => rfl
  | cons a l ih =>
      rw [List.flatMap_cons, List.flatMap_cons, h a (List.mem_cons_self ..),
        ih fun x hx => h x (List.mem_cons_of_mem _ hx)]

/-- C1: over well-formed data (live output names non-empty, each stored
state absent or one of enable/disable, no stored empty-string transform) and
when every profile's description matches a live output, activation emits its
actions in the claimed two-phase order: first a Disable for every live output
name not matched by any profile description, then, per profile in stored
list order, Enable/Disable by state (default enable), SetTransform exactly
when transform is present, and SetPosition with the (defaulted) position. -/
theorem activate_two_phase (ws : Workspace) (live : List Output)
    (hnames : ∀ o ∈ live, ¬ o.name = "")
    (hstate : ∀ p ∈ ws.monitors,
      p.state = none ∨ p.state = some "enable" ∨ p.state = some "disable")
    (htf : ∀ p ∈ ws.monitors, ¬ p.transform = some "")
    (hmatch : ∀ p ∈ ws.monitors, (lookupOf live p.description).isSome = true) :
    activate ws live =
      (((live.map Output.name).dedup).filter
          fun n => !matchedByProfile ws live n).map Action.disable
        ++ ws.monitors.flatMap (claimProfileActions live) := by
  unfold activate
  refine congrArg₂ (· ++ ·) (congrArg (List.map Action.disable) ?_) ?_
  · apply List.filter_congr
    intro n _
    by_cases hm : n ∈ resolvedNames ws live
    · have := (mem_resolved_iff_matched hnames).mp hm
      simp [hm, this]
    · have hb : matchedByProfile ws live n = false :=
        Bool.eq_false_iff.mpr fun hc =>
          hm ((mem_resolved_iff_matched hnames).mpr hc)
      simp [hm, hb]
  · apply flatMap_congr_of_mem
    intro p hp
    obtain ⟨n, hl⟩ := Option.isSome_iff_exists.mp (hmatch p hp)
    have hn : ¬ n = "" := by
      obtain ⟨o, ho, _, hno⟩ := lookupOf_sound hl
      rw [← hno]; exact hnames o ho
    rw [profileStep, claimProfileActions]
    simp only [hl]
    rw [if_neg hn]
    rcases hstate p hp with hs | hs | hs <;>
      cases htr : p.transform with
      | none => simp [hs]
      | some t =>
          have ht : ¬ t = "" := fun he => htf p hp (by rw [htr, he])
          simp [hs, ht]

theorem activate_two_phase_witness :
    ((∀ o ∈ [exampleHDMI, exampleDP], ¬ o.name = "")
      ∧ (∀ p ∈ exampleWork.monitors,
          p.state = none ∨ p.state = some "enable" ∨ p.state = some "disable")
      ∧ (∀ p ∈ exampleWork.monitors, ¬ p.transform = some "")
      ∧ (∀ p ∈ exampleWork.monitors,
          (lookupOf [exampleHDMI, exampleDP] p.description).isSome = true))
    ∧ activate exampleWork [exampleHDMI, exampleDP] =
        ((([exampleHDMI, exampleDP].map Output.name).dedup).filter
            fun n => !matchedByProfile exampleWork [exampleHDMI, exampleDP] n).map
          Action.disable
        ++ exampleWork.monitors.flatMap
            (claimProfileActions [exampleHDMI, exampleDP]) :=
  ⟨⟨by decide, by decide, by decide, by decide⟩,
   activate_two_phase exampleWork [exampleHDMI, exampleDP]
     (by decide) (by decide) (by decide) (by decide)⟩

/-! ### C5: capture → activate round trip -/

theorem captureMonitors_cons (o : Output) (rest : List Output) :
    captureMonitors (o :: rest) =
      (if o.active then [claimCaptureEntry o] else []) ++ captureMonitors rest := by
  show List.filterMap _ (o :: rest) = _
  rw [List.filterMap_cons]
  by_cases ho : o.active <;> simp [ho, claimCaptureEntry, captureMonitors]

/-- Capture emits exactly the claim's entry for each active live output, in
order, and omits every inactive output. -/
theorem captureMonitors_eq (live : List Output) :
    captureMonitors live = (live.filter fun o => o.active).map claimCaptureEntry := by
  induction live with
  | nil => rfl
  | cons o rest ih =>
      rw [captureMonitors_cons, ih, List.filter_cons]
      by_cases ho : o.active <;> simp [ho]

theorem enabledAfter_append (f : String → Bool) (xs ys : List Action) :
    enabledAfter f (xs ++ ys) = enabledAfter (enabledAfter f xs) ys := by
  rw [enabledAfter, enabledAfter, enabledAfter, List.foldl_append]

theorem enabledAfter_disables (ns : List String) :
    ∀ (f : String → Bool) (n : String),
      enabledAfter f (ns.map Action.disable) n = if n ∈ ns then false else f n := by
  induction ns with
  | nil => intro f n; simp [enabledAfter]
  | cons m ns ih =>
      intro f n
      rw [List.map_cons]
      show enabledAfter (applyAction f (Action.disable m)) (ns.map Action.disable) n = _
      rw [ih]
      by_cases h1 : n ∈ ns <;> by_cases h2 : n = m <;>
        simp [h1, h2, applyAction]

theorem enabledAfter_step_capture (live : List Output) (o : Output)
    (hlk : lookupOf live o.descriptionOf = some o.name) (hn : ¬ o.name = "") :
    ∀ (f : String → Bool) (m : String),
      enabledAfter f (profileStep live (claimCaptureEntry o)) m
        = if m = o.name then true else f m := by
  intro f m
  rw [profileStep]
  simp only [claimCaptureEntry, hlk]
  rw [if_neg hn]
  by_cases ht : o.transform = "" <;>
    by_cases hm : m = o.name <;>
      simp [ht, hm, enabledAfter, applyAction]

theorem enabledAfter_capture_flatMap (live : List Output) :
    ∀ (l : List Output),
      (∀ o ∈ l, lookupOf live o.descriptionOf = some o.name ∧ ¬ o.name = "") →
      ∀ (f : String → Bool) (n : String),
        enabledAfter f ((l.map claimCaptureEntry).flatMap (profileStep live)) n
          = if n ∈ l.map Output.name then true else f n := by
  intro l
  induction l with
  | nil => intro _ f n; simp [enabledAfter]
  | cons a l ih =>
      intro hl f n
      rw [List.map_cons, List.flatMap_cons, enabledAfter_append,
        ih (fun o ho => hl o (List.mem_cons_of_mem _ ho))]
      obtain ⟨hlk, hn⟩ := hl a (List.mem_cons_self ..)
      rw [enabledAfter_step_capture live a hlk hn]
      by_cases h1 : n ∈ l.map Output.name <;> by_cases h2 : n = a.name <;>
        simp [h1, h2]

theorem activeInit_eq_true_iff (live : List Output) (n : String) :
    activeInit live n = true
      ↔ n ∈ (live.filter fun o => o.active).map Output.name := by
  rw [activeInit, List.any_eq_true]
  constructor
  · rintro ⟨o, ho, hp⟩
    rw [Bool.and_eq_true, decide_eq_true_eq] at hp
    exact List.mem_map.mpr ⟨o, List.mem_filter.mpr ⟨ho, hp.2⟩, hp.1⟩
  · intro h
    obtain ⟨o, hof, hname⟩ := List.mem_map.mp h
    obtain ⟨ho, hact⟩ := List.mem_filter.mp hof
    exact ⟨o, ho, by simp [hname, hact]⟩

theorem resolvedNames_capture (live : List Output) (nm : String)
    (h1 : ∀ o ∈ live, ¬ o.name = "")
    (h2 : (live.map Output.descriptionOf).Nodup) :
    resolvedNames ⟨nm, captureMonitors live⟩ live
      = (live.filter fun o => o.active).map Output.name := by
  show (captureMonitors live).filterMap _ = _
  rw [captureMonitors_eq]
  apply filterMap_map_of_eq_some
  intro o ho
  have holive : o ∈ live := (List.mem_filter.mp ho).1
  have hlk : lookupOf live o.descriptionOf = some o.name := lookupOf_self h2 holive
  simp only [claimCaptureEntry, hlk]
  rw [if_neg (h1 o holive)]

/-- C5 counterexample: the claimed round trip fails when two live outputs
share a derived description.  With live outputs A and B, both active and both
described "X", capture emits two profiles with description "X", the
last-write-wins lookup resolves both to B, activation therefore disables A
(unmatched) and enables only B — so the enabled set after activation differs
from the live active set at A, refuting the claim's universally quantified
consequent. -/
theorem capture_roundtrip_counterexample :
    activeInit [⟨"A", "X", "", "", true, "normal", ⟨0, 0⟩⟩,
                ⟨"B", "X", "", "", true, "normal", ⟨0, 0⟩⟩] "A" = true
      ∧ enabledAfter
          (activeInit [⟨"A", "X", "", "", true, "normal", ⟨0, 0⟩⟩,
                       ⟨"B", "X", "", "", true, "normal", ⟨0, 0⟩⟩])
          (activate
            ⟨"cap", captureMonitors
              [⟨"A", "X", "", "", true, "normal", ⟨0, 0⟩⟩,
               ⟨"B", "X", "", "", true, "normal", ⟨0, 0⟩⟩]⟩
            [⟨"A", "X", "", "", true, "normal", ⟨0, 0⟩⟩,
             ⟨"B", "X", "", "", true, "normal", ⟨0, 0⟩⟩]) "A" = false := by
  decide

/-- C5 (amended): capture emits exactly one MonitorProfile — derived
description, state "enable", current transform, current position — per
active output and omits inactive outputs entirely; and, provided the live
outputs have non-empty names and pairwise distinct derived descriptions (the
description lookup loses entries otherwise), activating the captured
workspace against the same live list leaves exactly the originally active
output names enabled. -/
theorem capture_activate_roundtrip (live : List Output) (nm : String)
    (h1 : ∀ o ∈ live, ¬ o.name = "")
    (h2 : (live.map Output.descriptionOf).Nodup) :
    captureMonitors live = (live.filter fun o => o.active).map claimCaptureEntry
      ∧ ∀ n, enabledAfter (activeInit live)
          (activate ⟨nm, captureMonitors live⟩ live) n = activeInit live n := by
  refine ⟨captureMonitors_eq live, fun n => ?_⟩
  have hres := resolvedNames_capture live nm h1 h2
  have hact : activate ⟨nm, captureMonitors live⟩ live
      = (((live.map Output.name).dedup).filter
            fun m => ¬ m ∈ resolvedNames ⟨nm, captureMonitors live⟩ live).map
          Action.disable
        ++ (captureMonitors live).flatMap (profileStep live) := rfl
  rw [hact, enabledAfter_append]
  simp only [hres]
  rw [captureMonitors_eq]
  rw [enabledAfter_capture_flatMap live (live.filter fun o => o.active)
    (fun o ho => ⟨lookupOf_self h2 (List.mem_filter.mp ho).1,
                  h1 o (List.mem_filter.mp ho).1⟩)]
  rw [enabledAfter_disables]
  by_cases hA : n ∈ (live.filter fun o => o.active).map Output.name
  · rw [if_pos hA]
    exact ((activeInit_eq_true_iff live n).mpr hA).symm
  · rw [if_neg hA]
    have hinit : activeInit live n = false :=
      Bool.eq_false_iff.mpr fun hc => hA ((activeInit_eq_true_iff live n).mp hc)
    by_cases hd : n ∈ ((live.map Output.name).dedup).filter
        fun m => ¬ m ∈ (live.filter fun o => o.active).map Output.name
    · rw [if_pos hd, hinit]
    · rw [if_neg hd]

theorem capture_activate_roundtrip_witness :
    captureMonitors [exampleHDMI, exampleDP]
        = ([exampleHDMI, exampleDP].filter fun o => o.active).map claimCaptureEntry
      ∧ enabledAfter (activeInit [exampleHDMI, exampleDP])
          (activate ⟨"cap", captureMonitors [exampleHDMI, exampleDP]⟩
            [exampleHDMI, exampleDP]) "HDMI-1"
        = activeInit [exampleHDMI, exampleDP] "HDMI-1" :=
  ⟨(capture_activate_roundtrip [exampleHDMI, exampleDP] "cap"
      (by decide) (by decide)).1,
   (capture_activate_roundtrip [exampleHDMI, exampleDP] "cap"
      (by decide) (by decide)).2 "HDMI-1"⟩

end SwayMM
